import Mathlib

/-!
# Conway's Game of Life (`gol.c`): a shallow embedding

The C program keeps the board in an `int[HEIGHT][WIDTH]` array whose extents
are the global variables `WIDTH` and `HEIGHT`.  Here the extents are explicit
arguments and the content of such an array is a function from a row and a
column to the `int` stored there.

The C code indexes the array without checking the upper bounds.  A read whose
row or column lies outside the array is not answered by the array: the value
it yields is whatever the machine finds at that address.  That value is an
explicit argument `oob` of every function that reads the array, so that every
statement below says exactly how far the result depends on it.
-/

namespace GoL

/-! ## Data model -/

/-- Content of an `int[HEIGHT][WIDTH]` array: `array r c` is `(*array)[r][c]`. -/
abbrev Board := Nat → Nat → Int

/-- The index pair `[r][c]` designates a cell of an `int[HEIGHT][WIDTH]` array. -/
def in_range (WIDTH HEIGHT : Nat) (r c : Int) : Prop :=
  0 ≤ r ∧ r < (HEIGHT : Int) ∧ 0 ≤ c ∧ c < (WIDTH : Int)

instance (WIDTH HEIGHT : Nat) (r c : Int) : Decidable (in_range WIDTH HEIGHT r c) := by
  unfold in_range
  infer_instance

/-- Evaluation of the expression `(*array)[r][c]`.  Inside the array it is the
cell; outside it is the value `oob r c` supplied by the surrounding memory. -/
def index (WIDTH HEIGHT : Nat) (oob : Int → Int → Int) (array : Board) (r c : Int) : Int :=
  if in_range WIDTH HEIGHT r c then array r.toNat c.toNat else oob r c

/-- The assignment `(*array)[r][c] = v`. -/
def store (array : Board) (r c : Nat) (v : Int) : Board :=
  fun r' c' => if r' = r ∧ c' = c then v else array r' c'

/-- What a row-major machine finds for `(*array)[r][c]` when `[r][c]` is out of
range: the `int` at offset `r * WIDTH + c` from the start of the array.  That is
a cell of another row while the offset is inside the array, and afterwards one
of the words `past 0`, `past 1`, ... that follow the array in memory. -/
def row_major (WIDTH HEIGHT : Nat) (array : Board) (past : Nat → Int) (r c : Int) : Int :=
  let k := r * (WIDTH : Int) + c
  if 0 ≤ k ∧ k < (HEIGHT : Int) * (WIDTH : Int) then
    array (k.toNat / WIDTH) (k.toNat % WIDTH)
  else past (k.toNat - HEIGHT * WIDTH)

/-- A board given by its rows; cells that are not listed hold `0`. -/
def of_rows (rows : List (List Int)) : Board :=
  fun r c => (rows.getD r []).getD c 0

/-! ## `neighbor_count` -/

/-- The values `-1, 0, 1` taken by the loop variables `y` and `x` of
`neighbor_count` (`for (int y = -1; y < 2; y++)`). -/
def offsets : List Int := [-1, 0, 1]

/-- The condition under which `neighbor_count` reads the array at the offset
`(x, y)`: `!(y == 0 && x == 0) && y+pos_y >= 0 && x+pos_x >= 0`. -/
def considered (pos_x pos_y x y : Int) : Prop :=
  ¬ (y = 0 ∧ x = 0) ∧ y + pos_y ≥ 0 ∧ x + pos_x ≥ 0

instance (pos_x pos_y x y : Int) : Decidable (considered pos_x pos_y x y) := by
  unfold considered
  infer_instance

/-- The function `neighbor_count` of `gol.c`.  The counter is the `size_t count`;
it is incremented at most eight times, so the conversion to the `int` result
keeps its value. -/
def neighbor_count (WIDTH HEIGHT : Nat) (oob : Int → Int → Int)
    (pos_x pos_y : Int) (array : Board) : Int :=
  let count : Nat :=
    offsets.foldl (fun count y =>
      offsets.foldl (fun count x =>
        if considered pos_x pos_y x y then
          if index WIDTH HEIGHT oob array (pos_y + y) (pos_x + x) = 1 then count + 1
          else count
        else count) count) 0
  (count : Int)

/-- The index pairs `[pos_y+y][pos_x+x]` at which `neighbor_count` reads the
array, in the order of the reads: the same two loops and the same guard as
`neighbor_count`, recording the index instead of counting. -/
def neighbor_reads (pos_x pos_y : Int) : List (Int × Int) :=
  offsets.foldl (fun reads y =>
    offsets.foldl (fun reads x =>
      if considered pos_x pos_y x y then reads ++ [(pos_y + y, pos_x + x)]
      else reads) reads) []

/-- Contribution of the offset `(x, y)` to `neighbor_count`: `1` when the
offset is considered and the cell read there equals `1`, else `0`. -/
def hit (WIDTH HEIGHT : Nat) (oob : Int → Int → Int) (pos_x pos_y : Int) (array : Board)
    (x y : Int) : Nat :=
  if considered pos_x pos_y x y ∧
      index WIDTH HEIGHT oob array (pos_y + y) (pos_x + x) = 1 then 1 else 0

/-! ## `copy_array` and `gol_step` -/

/-- The function `copy_array` of `gol.c`; the result is the content of `dst`
after the call. -/
def copy_array (WIDTH HEIGHT : Nat) (src dst : Board) : Board :=
  (List.range HEIGHT).foldl (fun dst y =>
    (List.range WIDTH).foldl (fun dst x => store dst y x (src y x)) dst) dst

/-- Body of the inner loop of `gol_step` at the cell `(x, y)`: the neighbors are
counted on `read_only_array`, the write goes to `array`. -/
def gol_cell (WIDTH HEIGHT : Nat) (oob : Int → Int → Int) (read_only_array : Board)
    (array : Board) (y x : Nat) : Board :=
  let ncount := neighbor_count WIDTH HEIGHT oob (x : Int) (y : Int) read_only_array
  if read_only_array y x = 1 then
    if ncount ≠ 2 ∧ ncount ≠ 3 then store array y x 0 else array
  else
    if ncount = 3 then store array y x 1 else array

/-- The function `gol_step` of `gol.c`.  The argument `array` is the content of
the caller's array before the call and the result is its content after the
call (the C function returns nothing and writes through the pointer).
`scratch` is the indeterminate initial content of the local `read_only_array`.
The locals `cells_to_kill` and `cells_to_birth` are never used. -/
def gol_step (WIDTH HEIGHT : Nat) (oob : Int → Int → Int) (scratch : Board)
    (array : Board) : Board :=
  let read_only_array := copy_array WIDTH HEIGHT array scratch
  (List.range HEIGHT).foldl (fun array y =>
    (List.range WIDTH).foldl (fun array x =>
      gol_cell WIDTH HEIGHT oob read_only_array array y x) array) array

/-- The state `gol_step` leaves in a cell, from the cell's state `old` and the
count `n` of its neighbors, both taken before the step: a cell equal to `1` is
set to `0` unless `n` is 2 or 3, any other cell is set to `1` when `n` is 3, and
the cell is not written otherwise. -/
def next_state (old n : Int) : Int :=
  if old = 1 then (if n ≠ 2 ∧ n ≠ 3 then 0 else old) else (if n = 3 then 1 else old)

/-! ## `print_array` and `play_the_gol` -/

/-- The numbers `print_array` prints, row by row and, in a row, column by column. -/
def print_array (WIDTH HEIGHT : Nat) (array : Board) : List (List Int) :=
  (List.range HEIGHT).map (fun y => (List.range WIDTH).map (fun x => array y x))

/-- The effects of `play_the_gol` on the terminal and the clock. -/
inductive Event where
  /-- The output `Starting board:` followed by `print_array`. -/
  | starting (rows : List (List Int))
  /-- The call `system("clear")`. -/
  | clear
  /-- The output `Iteration: i` followed by `print_array`. -/
  | iteration (i : Int) (rows : List (List Int))
  /-- The call `sleep_ms(ms)`. -/
  | sleep (ms : Int)
  deriving DecidableEq

/-- The largest value of the type `int` (32 bits). -/
def INT_MAX : Int := 2147483647

/-- The smallest value of the type `int` (32 bits). -/
def INT_MIN : Int := -2147483648

/-- The value of a 32-bit two's-complement `int` after `i++`. -/
def int_incr (i : Int) : Int := (i + 1 + 2147483648) % 4294967296 - 2147483648

/-- The loop `for (int i = 1; i <= iterations; i++)` of `play_the_gol`, entered
with the value `i` of the counter, the content `game_array` of the board and the
effects `out` produced so far.  `fuel` bounds the number of times the loop
condition is evaluated; the result is `none` when the loop has not ended within
that bound.  The call of `gol_step` made when the counter is `i` finds the
surrounding memory `oob i` and the local array content `scratch i`. -/
def play_loop (WIDTH HEIGHT : Nat) (oob : Int → Int → Int → Int) (scratch : Int → Board)
    (wait_time_ms : Int) (iterations : Int) :
    Nat → Int → Board → List Event → Option (Board × List Event)
  | 0, _, _, _ => none
  | fuel + 1, i, game_array, out =>
    if i ≤ iterations then
      play_loop WIDTH HEIGHT oob scratch wait_time_ms iterations fuel (int_incr i)
        (gol_step WIDTH HEIGHT (oob i) (scratch i) game_array)
        (out ++ [Event.clear,
          Event.iteration i
            (print_array WIDTH HEIGHT (gol_step WIDTH HEIGHT (oob i) (scratch i) game_array)),
          Event.sleep wait_time_ms])
    else some (game_array, out)

/-- The function `play_the_gol` of `gol.c`: the content of the board when it
returns and the effects it has produced, or `none` when it has not returned
within `fuel` evaluations of the loop condition. -/
def play_the_gol (WIDTH HEIGHT : Nat) (oob : Int → Int → Int → Int) (scratch : Int → Board)
    (fuel : Nat) (iterations : Int) (game_array : Board) (wait_time_ms : Int) :
    Option (Board × List Event) :=
  play_loop WIDTH HEIGHT oob scratch wait_time_ms iterations fuel 1 game_array
    [Event.starting (print_array WIDTH HEIGHT game_array), Event.sleep 3000]

/-- The board after `gol_step` has been applied `n` times, the `j`-th
application being the one `play_the_gol` makes when its counter is `j`. -/
def gol_steps (WIDTH HEIGHT : Nat) (oob : Int → Int → Int → Int) (scratch : Int → Board)
    (G0 : Board) : Nat → Board
  | 0 => G0
  | n + 1 =>
    gol_step WIDTH HEIGHT (oob ((n + 1 : Nat) : Int)) (scratch ((n + 1 : Nat) : Int))
      (gol_steps WIDTH HEIGHT oob scratch G0 n)

/-- The grids rendered among a list of effects, each with its label: `none` for
the starting board and `some i` for `Iteration: i`. -/
def rendered : List Event → List (Option Int × List (List Int))
  | [] => []
  | Event.starting rows :: es => (none, rows) :: rendered es
  | Event.iteration i rows :: es => (some i, rows) :: rendered es
  | _ :: es => rendered es

/-- The effects of the first `n` passes through the loop of `play_the_gol`,
after the two effects that precede the loop. -/
def play_trace (WIDTH HEIGHT : Nat) (oob : Int → Int → Int → Int) (scratch : Int → Board)
    (G0 : Board) (wait_time_ms : Int) (n : Nat) : List Event :=
  [Event.starting (print_array WIDTH HEIGHT G0), Event.sleep 3000] ++
    (List.range n).flatMap (fun j =>
      [Event.clear,
        Event.iteration ((j + 1 : Nat) : Int)
          (print_array WIDTH HEIGHT (gol_steps WIDTH HEIGHT oob scratch G0 (j + 1))),
        Event.sleep wait_time_ms])

/-! ## `copy_array` on pointers -/

/-- A memory holding several arrays: `mem p` is the content of the array the
pointer `p` points to.  Two pointers are the same array exactly when they are
equal. -/
abbrev Memory := Nat → Board

/-- The function `copy_array` of `gol.c` on its two pointer arguments, in a
memory `mem`: every pass reads `(*src)[y][x]` in the memory as it is at that
moment and writes it to `(*dst)[y][x]`.  The result is the memory after the
call. -/
def copy_array_at (WIDTH HEIGHT : Nat) (src dst : Nat) (mem : Memory) : Memory :=
  (List.range HEIGHT).foldl (fun mem y =>
    (List.range WIDTH).foldl (fun mem x =>
      Function.update mem dst (store (mem dst) y x (mem src y x))) mem) mem

/-! ## `initial_config` -/

/-- The four global variables `WIDTH`, `HEIGHT`, `ITERATIONS`, `WAIT_TIME_MS`. -/
structure Config where
  /-- The global `WIDTH`. -/
  WIDTH : Int
  /-- The global `HEIGHT`. -/
  HEIGHT : Int
  /-- The global `ITERATIONS`. -/
  ITERATIONS : Int
  /-- The global `WAIT_TIME_MS`. -/
  WAIT_TIME_MS : Int
  deriving DecidableEq

/-- The initial values of the globals:
`int WIDTH = 20, HEIGHT = 20, ITERATIONS = 100, WAIT_TIME_MS = 100;`. -/
def defaults : Config := ⟨20, 20, 100, 100⟩

/-- The text `fgets` has put into `buffer` when it does not return `NULL`: at
least one character (the input is text without NUL bytes). -/
structure Line where
  /-- The character `buffer[0]`. -/
  first : Char
  /-- The characters after `buffer[0]`, up to the terminating NUL. -/
  rest : List Char
  deriving DecidableEq

/-- The conversion of the `long` result of `strtol` to `int` in an assignment
such as `WIDTH = strtol(buffer, NULL, 10)` (32-bit two's complement). -/
def int_of_long (v : Int) : Int := (v + 2147483648) % 4294967296 - 2147483648

/-- One prompt of `initial_config`, from the result `line` of its `fgets` call
(`none` for `NULL`) and the current value of the global it is about, to the
value of that global afterwards.  A blank line and a failed read leave the
global alone; otherwise the last character of the buffer is cut off
(`buffer[strlen(buffer) - 1] = 0`) and the rest goes through `strtol`.  The
library function `strtol(., NULL, 10)` is the argument `strtol`.  The prompt and
the `Defaulting to` messages are output only. -/
def read_setting (strtol : List Char → Int) (line : Option Line) (current : Int) : Int :=
  match line with
  | some l =>
    if l.first = '\n' then current
    else int_of_long (strtol (l.first :: l.rest).dropLast)
  | none => current

/-- The function `initial_config` of `gol.c`, from the results of its four
`fgets` calls, in the order of the prompts (width, height, iterations, wait
time), and the values of the globals before the call, to their values after it. -/
def initial_config (strtol : List Char → Int) (line1 line2 line3 line4 : Option Line)
    (g : Config) : Config :=
  let g := { g with WIDTH := read_setting strtol line1 g.WIDTH }
  let g := { g with HEIGHT := read_setting strtol line2 g.HEIGHT }
  let g := { g with ITERATIONS := read_setting strtol line3 g.ITERATIONS }
  { g with WAIT_TIME_MS := read_setting strtol line4 g.WAIT_TIME_MS }

/-- The result of `fgets` is `NULL`, or the line read starts with a newline. -/
def blank_or_missing (line : Option Line) : Prop :=
  match line with
  | some l => l.first = '\n'
  | none => True

instance (line : Option Line) : Decidable (blank_or_missing line) := by
  unfold blank_or_missing
  cases line <;> infer_instance

/-! ## `generate_board_randomly` -/

/-- The body of the inner loop of `generate_board_randomly` at the cell `(x, y)`:
`(*out_array)[y][x] = rand() % 2`.  The state is the array and the number of
calls of `rand()` made so far; `rand k` is the result of the call number `k`.
The operator `%` of C truncates, as `Int.tmod` does. -/
def generate_cell (rand : Nat → Int) (y : Nat) (s : Board × Nat) (x : Nat) : Board × Nat :=
  (store s.1 y x ((rand s.2).tmod 2), s.2 + 1)

/-- The function `generate_board_randomly` of `gol.c`: the content of
`out_array` after the call.  The sequence `rand` stands for the results of the
successive calls of `rand()` after `srand(time(NULL))`. -/
def generate_board_randomly (WIDTH HEIGHT : Nat) (rand : Nat → Int) (out_array : Board) :
    Board :=
  ((List.range HEIGHT).foldl (fun s y =>
    (List.range WIDTH).foldl (generate_cell rand y) s) (out_array, 0)).1

/-! ## The neighbors with non-negative coordinates -/

/-- The number of cells equal to `1` among the neighbors `(x+dx, y+dy)` of
`(x, y)`, `(dx, dy)` in `{-1,0,1}²` other than `(0,0)`, that have `x+dx >= 0`
and `y+dy >= 0`; written from the words of the claim, not from the code. -/
def live_among_nonnegative (G : Board) (x y : Int) : Nat :=
  ((offsets.flatMap (fun dy => offsets.map (fun dx => (dx, dy)))).filter (fun d =>
    decide (d ≠ (0, 0) ∧ x + d.1 ≥ 0 ∧ y + d.2 ≥ 0 ∧
      G (y + d.2).toNat (x + d.1).toNat = 1))).length

/-! ## The neighbor count the specification asks for -/

/-- The count of the specification (section 4.2, "treat any neighbor coordinate
outside `[0,width)×[0,height)` on any side as dead/absent"), written from its
words and not from the code: the number of offsets `(dx, dy)` in `{-1,0,1}²`
other than `(0,0)` for which `(x+dx, y+dy)` lies inside the grid and is alive. -/
def spec_live_neighbors (WIDTH HEIGHT : Nat) (G : Board) (x y : Int) : Nat :=
  ((offsets.flatMap (fun dy => offsets.map (fun dx => (dx, dy)))).filter (fun d =>
    decide (d ≠ (0, 0) ∧ in_range WIDTH HEIGHT (y + d.2) (x + d.1) ∧
      G (y + d.2).toNat (x + d.1).toNat = 1))).length

/-! ## Boards used as examples -/

/-- A 3 x 3 board whose only live cell is the middle one. -/
def single_cell : Board := of_rows [[0, 0, 0], [0, 1, 0], [0, 0, 0]]

/-- A 3 x 3 board with the live cells (0,1), (1,1), (2,1), (1,0). -/
def tee : Board := of_rows [[0, 1, 0], [1, 1, 1], [0, 0, 0]]

/-- A 2 x 3 board (two columns, three rows) whose only live cell is `(x, y) = (0, 2)`. -/
def corner_2x3 : Board := of_rows [[0, 0], [0, 0], [1, 0]]

/-- Surrounding memory in which every out-of-range read yields `0`. -/
def zeros : Int → Int → Int := fun _ _ => 0

/-- Surrounding memory in which every out-of-range read yields `1`. -/
def ones : Int → Int → Int := fun _ _ => 1

/-- An array whose cells all hold `0`. -/
def blank : Board := fun _ _ => 0

/-- The 5 x 5 board whose only live cells are (1,2), (2,2), (3,2): the blinker,
horizontal. -/
def blinker_h : Board :=
  of_rows [[0, 0, 0, 0, 0], [0, 0, 0, 0, 0], [0, 1, 1, 1, 0], [0, 0, 0, 0, 0], [0, 0, 0, 0, 0]]

/-- The 5 x 5 board whose only live cells are (2,1), (2,2), (2,3): the blinker,
vertical. -/
def blinker_v : Board :=
  of_rows [[0, 0, 0, 0, 0], [0, 0, 1, 0, 0], [0, 0, 1, 0, 0], [0, 0, 1, 0, 0], [0, 0, 0, 0, 0]]

/-- The 4 x 4 board whose only live cells are (1,1), (1,2), (2,1), (2,2): the block. -/
def block : Board :=
  of_rows [[0, 0, 0, 0], [0, 1, 1, 0], [0, 1, 1, 0], [0, 0, 0, 0]]

/-- The relation "`(c, r)` is one of the eight neighbors of `(x, y)`" on
coordinates that are natural numbers. -/
def adjacent (x y c r : Nat) : Prop :=
  (r + 1 = y ∨ r = y ∨ r = y + 1) ∧ (c + 1 = x ∨ c = x ∨ c = x + 1) ∧ ¬ (r = y ∧ c = x)

instance (x y c r : Nat) : Decidable (adjacent x y c r) := by
  unfold adjacent
  infer_instance

/-! ## Loop lemmas -/

/-- One pass of the inner guard of `neighbor_count`, as an increment. -/
theorem bump_eq (c i : Prop) [Decidable c] [Decidable i] (n : Nat) :
    (if c then (if i then n + 1 else n) else n) = n + (if c ∧ i then 1 else 0) := by
  by_cases hc : c <;> by_cases hi : i <;> simp [hc, hi]

theorem hit_le_one (WIDTH HEIGHT : Nat) (oob : Int → Int → Int) (pos_x pos_y : Int)
    (array : Board) (x y : Int) : hit WIDTH HEIGHT oob pos_x pos_y array x y ≤ 1 := by
  unfold hit
  split <;> simp

theorem hit_center (WIDTH HEIGHT : Nat) (oob : Int → Int → Int) (pos_x pos_y : Int)
    (array : Board) : hit WIDTH HEIGHT oob pos_x pos_y array 0 0 = 0 := by
  simp [hit, considered]

/-- The two loops of `neighbor_count` unrolled: the result is the sum of the
contributions of the nine offsets, in the order in which the loops visit them. -/
theorem neighbor_count_eq_sum (WIDTH HEIGHT : Nat) (oob : Int → Int → Int)
    (pos_x pos_y : Int) (array : Board) :
    neighbor_count WIDTH HEIGHT oob pos_x pos_y array =
      ((hit WIDTH HEIGHT oob pos_x pos_y array (-1) (-1)
        + hit WIDTH HEIGHT oob pos_x pos_y array 0 (-1)
        + hit WIDTH HEIGHT oob pos_x pos_y array 1 (-1)
        + hit WIDTH HEIGHT oob pos_x pos_y array (-1) 0
        + hit WIDTH HEIGHT oob pos_x pos_y array 0 0
        + hit WIDTH HEIGHT oob pos_x pos_y array 1 0
        + hit WIDTH HEIGHT oob pos_x pos_y array (-1) 1
        + hit WIDTH HEIGHT oob pos_x pos_y array 0 1
        + hit WIDTH HEIGHT oob pos_x pos_y array 1 1 : Nat) : Int) := by
  simp only [neighbor_count, offsets, List.foldl, bump_eq, hit, Nat.zero_add]

/-- Reads inside the array do not depend on anything but the cells of the array. -/
theorem index_congr (WIDTH HEIGHT : Nat) (oob : Int → Int → Int) (a b : Board)
    (hab : ∀ r, r < HEIGHT → ∀ c, c < WIDTH → a r c = b r c) (r c : Int) :
    index WIDTH HEIGHT oob a r c = index WIDTH HEIGHT oob b r c := by
  unfold index
  split
  · rename_i h
    obtain ⟨h1, h2, h3, h4⟩ := h
    exact hab _ (by omega) _ (by omega)
  · rfl

/-- The count `neighbor_count` returns is the same on two arrays with the same cells. -/
theorem neighbor_count_congr (WIDTH HEIGHT : Nat) (oob : Int → Int → Int) (a b : Board)
    (hab : ∀ r, r < HEIGHT → ∀ c, c < WIDTH → a r c = b r c) (pos_x pos_y : Int) :
    neighbor_count WIDTH HEIGHT oob pos_x pos_y a
      = neighbor_count WIDTH HEIGHT oob pos_x pos_y b := by
  have h : index WIDTH HEIGHT oob a = index WIDTH HEIGHT oob b := by
    funext r c
    exact index_congr WIDTH HEIGHT oob a b hab r c
  unfold neighbor_count
  rw [h]

/-- A loop over the columns `0 .. WIDTH-1` of row `y` whose body writes only the
cell it visits, with a value computed from the cell's own old content. -/
theorem foldl_columns (body : Board → Nat → Board) (val : Nat → Int → Int) (y : Nat)
    (hbody : ∀ a x r c, body a x r c = if r = y ∧ c = x then val x (a y x) else a r c)
    (WIDTH : Nat) (a : Board) (r c : Nat) :
    (List.range WIDTH).foldl body a r c
      = if r = y ∧ c < WIDTH then val c (a y c) else a r c := by
  induction WIDTH generalizing r c with
  | zero => simp
  | succ n ih =>
    rw [List.range_succ, List.foldl_append, List.foldl_cons, List.foldl_nil, hbody]
    simp only [ih]
    by_cases hr : r = y
    · subst hr
      rcases Nat.lt_trichotomy c n with h | h | h
      · have h1 : c ≠ n := by omega
        have h2 : c < n + 1 := by omega
        simp [h, h1, h2]
      · subst h
        simp
      · have h1 : c ≠ n := by omega
        have h2 : ¬ c < n + 1 := by omega
        have h3 : ¬ c < n := by omega
        simp [h1, h2, h3]
    · simp [hr]

/-- A loop over the rows `0 .. HEIGHT-1` and, inside, over the columns
`0 .. WIDTH-1`, whose body writes only the cell it visits, with a value computed
from the cell's own old content: afterwards every cell inside the array holds
that value and every other cell is untouched. -/
theorem foldl_rows (body : Nat → Board → Nat → Board) (val : Nat → Nat → Int → Int)
    (hbody : ∀ y a x r c,
      body y a x r c = if r = y ∧ c = x then val y x (a y x) else a r c)
    (WIDTH HEIGHT : Nat) (a : Board) (r c : Nat) :
    (List.range HEIGHT).foldl (fun a y => (List.range WIDTH).foldl (body y) a) a r c
      = if r < HEIGHT ∧ c < WIDTH then val r c (a r c) else a r c := by
  induction HEIGHT generalizing r c with
  | zero => simp
  | succ n ih =>
    rw [List.range_succ, List.foldl_append, List.foldl_cons, List.foldl_nil,
      foldl_columns (body n) (val n) n (hbody n)]
    simp only [ih]
    by_cases hc : c < WIDTH
    · rcases Nat.lt_trichotomy r n with h | h | h
      · have h1 : r ≠ n := by omega
        have h2 : r < n + 1 := by omega
        simp [h, h1, h2, hc]
      · subst h
        simp [hc]
      · have h1 : r ≠ n := by omega
        have h2 : ¬ r < n + 1 := by omega
        have h3 : ¬ r < n := by omega
        simp [h1, h2, h3]
    · simp [hc]

/-- After `copy_array` every cell of `dst` inside the array equals the cell of
`src`, and nothing else of `dst` is written. -/
theorem copy_array_cell (WIDTH HEIGHT : Nat) (src dst : Board) (r c : Nat) :
    copy_array WIDTH HEIGHT src dst r c
      = if r < HEIGHT ∧ c < WIDTH then src r c else dst r c := by
  unfold copy_array
  exact foldl_rows (fun y dst x => store dst y x (src y x)) (fun y x _ => src y x)
    (fun y a x r c => rfl) WIDTH HEIGHT dst r c

/-- What `gol_step` leaves in every cell: inside the array, the next state
computed from the content the array had before the call; outside, nothing is
written. -/
theorem gol_step_cell (WIDTH HEIGHT : Nat) (oob : Int → Int → Int) (scratch array : Board)
    (r c : Nat) :
    gol_step WIDTH HEIGHT oob scratch array r c
      = if r < HEIGHT ∧ c < WIDTH then
          next_state (array r c) (neighbor_count WIDTH HEIGHT oob (c : Int) (r : Int) array)
        else array r c := by
  have hcopy : ∀ y, y < HEIGHT → ∀ x, x < WIDTH →
      copy_array WIDTH HEIGHT array scratch y x = array y x := by
    intro y hy x hx
    rw [copy_array_cell]
    simp [hy, hx]
  have hn : ∀ x y : Int, neighbor_count WIDTH HEIGHT oob x y
      (copy_array WIDTH HEIGHT array scratch) = neighbor_count WIDTH HEIGHT oob x y array :=
    fun x y => neighbor_count_congr WIDTH HEIGHT oob _ _ hcopy x y
  unfold gol_step
  have h := foldl_rows
    (fun y a x => gol_cell WIDTH HEIGHT oob (copy_array WIDTH HEIGHT array scratch) a y x)
    (fun y x old =>
      if copy_array WIDTH HEIGHT array scratch y x = 1 then
        (if neighbor_count WIDTH HEIGHT oob (x : Int) (y : Int) array ≠ 2 ∧
            neighbor_count WIDTH HEIGHT oob (x : Int) (y : Int) array ≠ 3 then 0 else old)
      else (if neighbor_count WIDTH HEIGHT oob (x : Int) (y : Int) array = 3 then 1 else old))
    (by
      intro y a x r c
      simp only [gol_cell, hn, store]
      split_ifs <;> simp_all [store])
    WIDTH HEIGHT array r c
  simp only [] at h
  rw [h]
  by_cases hin : r < HEIGHT ∧ c < WIDTH
  · simp only [hin, and_self, if_true, hcopy r hin.1 c hin.2, next_state]
  · simp only [hin, if_false]

/-- For an `if` that appends one element, the appended part alone. -/
theorem push_eq {α : Type} (c : Prop) [Decidable c] (l : List α) (p : α) :
    (if c then l ++ [p] else l) = l ++ (if c then [p] else []) := by
  split <;> simp

/-- The reads recorded by `neighbor_reads` are the reads `neighbor_count` counts
on: the result is the number of recorded index pairs at which the array,
indexed as the C code indexes it, yields `1`. -/
theorem neighbor_count_eq_reads (WIDTH HEIGHT : Nat) (oob : Int → Int → Int)
    (pos_x pos_y : Int) (array : Board) :
    neighbor_count WIDTH HEIGHT oob pos_x pos_y array
      = (((neighbor_reads pos_x pos_y).filter
          (fun p => decide (index WIDTH HEIGHT oob array p.1 p.2 = 1))).length : Int) := by
  rw [neighbor_count_eq_sum]
  simp only [neighbor_reads, offsets, List.foldl, push_eq, List.nil_append, List.filter_append,
    List.length_append, hit]
  congr 1
  have key : ∀ (c : Prop) [Decidable c] (p : Int × Int),
      (List.filter (fun p => decide (index WIDTH HEIGHT oob array p.1 p.2 = 1))
        (if c then [p] else [])).length
      = if c ∧ index WIDTH HEIGHT oob array p.1 p.2 = 1 then 1 else 0 := by
    intro c _ p
    by_cases hc : c <;> by_cases hi : index WIDTH HEIGHT oob array p.1 p.2 = 1 <;>
      simp [hc, hi]
  simp only [key]

/-- At every cell `neighbor_count` reads the cell to the right: `[pos_y][pos_x+1]`. -/
theorem neighbor_reads_right (pos_x pos_y : Int) (hx : 0 ≤ pos_x) (hy : 0 ≤ pos_y) :
    (pos_y, pos_x + 1) ∈ neighbor_reads pos_x pos_y := by
  simp only [neighbor_reads, offsets, List.foldl, push_eq, List.nil_append, List.mem_append]
  have : considered pos_x pos_y 1 0 := by
    unfold considered
    refine ⟨by simp, by omega, by omega⟩
  simp [this]

/-- At every cell `neighbor_count` reads the cell below: `[pos_y+1][pos_x]`. -/
theorem neighbor_reads_below (pos_x pos_y : Int) (hx : 0 ≤ pos_x) (hy : 0 ≤ pos_y) :
    (pos_y + 1, pos_x) ∈ neighbor_reads pos_x pos_y := by
  simp only [neighbor_reads, offsets, List.foldl, push_eq, List.nil_append, List.mem_append]
  have : considered pos_x pos_y 0 1 := by
    unfold considered
    refine ⟨by simp, by omega, by omega⟩
  simp [this]

/-- On every grid, `neighbor_count` at a cell of the right column or of the
bottom row reads an index pair outside the array. -/
theorem neighbor_reads_edge_out_of_range (WIDTH HEIGHT x y : Nat)
    (hedge : x + 1 = WIDTH ∨ y + 1 = HEIGHT) :
    ∃ p ∈ neighbor_reads (x : Int) (y : Int), ¬ in_range WIDTH HEIGHT p.1 p.2 := by
  rcases hedge with h | h
  · refine ⟨_, neighbor_reads_right x y (by omega) (by omega), ?_⟩
    unfold in_range
    simp only []
    omega
  · refine ⟨_, neighbor_reads_below x y (by omega) (by omega), ?_⟩
    unfold in_range
    simp only []
    omega

/-- With the same surrounding memory, the grid `gol_step` leaves depends on
nothing but the cells of the grid it is given. -/
theorem gol_step_congr (WIDTH HEIGHT : Nat) (oob : Int → Int → Int) (s₁ s₂ a b : Board)
    (hab : ∀ r, r < HEIGHT → ∀ c, c < WIDTH → a r c = b r c)
    (r c : Nat) (hr : r < HEIGHT) (hc : c < WIDTH) :
    gol_step WIDTH HEIGHT oob s₁ a r c = gol_step WIDTH HEIGHT oob s₂ b r c := by
  rw [gol_step_cell, gol_step_cell, neighbor_count_congr WIDTH HEIGHT oob a b hab, hab r hr c hc]

/-- When no read outside the grid yields `1`, `gol_step` leaves the grid in
which every cell is `0` as it is. -/
theorem gol_step_blank_of_outside_not_one (WIDTH HEIGHT : Nat) (oob : Int → Int → Int)
    (scratch : Board) (hoob : ∀ r c, oob r c ≠ 1) (r c : Nat) :
    gol_step WIDTH HEIGHT oob scratch blank r c = 0 := by
  have hhit : ∀ px py dx dy : Int, hit WIDTH HEIGHT oob px py blank dx dy = 0 := by
    intro px py dx dy
    unfold hit
    rw [if_neg]
    rintro ⟨-, h1⟩
    unfold index at h1
    split at h1
    · simp [blank] at h1
    · exact hoob _ _ h1
  rw [gol_step_cell, neighbor_count_eq_sum]
  simp [hhit, next_state, blank]

/-! ## The loop of `play_the_gol` -/

/-- Below `INT_MAX` the increment `i++` adds one. -/
theorem int_incr_eq (i : Int) (h1 : INT_MIN ≤ i) (h2 : i < INT_MAX) : int_incr i = i + 1 := by
  unfold INT_MIN at h1
  unfold INT_MAX at h2
  unfold int_incr
  omega

/-- The counter stays a value of the type `int`. -/
theorem int_incr_le (i : Int) : int_incr i ≤ INT_MAX := by
  unfold INT_MAX int_incr
  omega

/-- At `INT_MAX` the increment `i++` wraps to `INT_MIN`. -/
theorem int_incr_max : int_incr INT_MAX = INT_MIN := by
  decide

/-- One more pass through the loop adds the three effects of that pass. -/
theorem play_trace_succ (WIDTH HEIGHT : Nat) (oob : Int → Int → Int → Int)
    (scratch : Int → Board) (G0 : Board) (wait_time_ms : Int) (n : Nat) :
    play_trace WIDTH HEIGHT oob scratch G0 wait_time_ms (n + 1)
      = play_trace WIDTH HEIGHT oob scratch G0 wait_time_ms n ++
        [Event.clear,
          Event.iteration ((n + 1 : Nat) : Int)
            (print_array WIDTH HEIGHT (gol_steps WIDTH HEIGHT oob scratch G0 (n + 1))),
          Event.sleep wait_time_ms] := by
  unfold play_trace
  rw [List.range_succ, List.flatMap_append]
  simp

/-- The grids rendered by the effects of `n` passes: the starting board, then
the boards after 1, ..., `n` steps, labelled 1, ..., `n`. -/
theorem rendered_play_trace (WIDTH HEIGHT : Nat) (oob : Int → Int → Int → Int)
    (scratch : Int → Board) (G0 : Board) (wait_time_ms : Int) (n : Nat) :
    rendered (play_trace WIDTH HEIGHT oob scratch G0 wait_time_ms n)
      = (none, print_array WIDTH HEIGHT G0) ::
        (List.range n).map (fun j =>
          (some ((j + 1 : Nat) : Int),
            print_array WIDTH HEIGHT (gol_steps WIDTH HEIGHT oob scratch G0 (j + 1)))) := by
  have happ : ∀ es i rows w, rendered (es ++ [Event.clear, Event.iteration i rows, Event.sleep w])
      = rendered es ++ [(some i, rows)] := by
    intro es i rows w
    induction es with
    | nil => simp [rendered]
    | cons e es ih => cases e <;> simp [rendered, ih]
  induction n with
  | zero => simp [play_trace, rendered]
  | succ n ih =>
    rw [play_trace_succ, happ, ih, List.range_succ, List.map_append]
    simp

/-- Loop invariant of `play_the_gol`: entered with counter `j + 1` after `j`
passes, with `m` passes to go until the counter exceeds `iterations = j + m`,
the loop ends within `m + 1` evaluations of its condition. -/
theorem play_loop_runs (WIDTH HEIGHT : Nat) (oob : Int → Int → Int → Int)
    (scratch : Int → Board) (G0 : Board) (wait_time_ms : Int) (k : Nat)
    (hk : (k : Int) < INT_MAX) (m j : Nat) (hj : j + m = k) :
    play_loop WIDTH HEIGHT oob scratch wait_time_ms (k : Int) (m + 1) ((j : Int) + 1)
        (gol_steps WIDTH HEIGHT oob scratch G0 j)
        (play_trace WIDTH HEIGHT oob scratch G0 wait_time_ms j)
      = some (gol_steps WIDTH HEIGHT oob scratch G0 k,
          play_trace WIDTH HEIGHT oob scratch G0 wait_time_ms k) := by
  induction m generalizing j with
  | zero =>
    have : j = k := by omega
    subst this
    unfold play_loop
    rw [if_neg (by omega)]
  | succ m ih =>
    unfold play_loop
    have hle : (j : Int) + 1 ≤ (k : Int) := by omega
    rw [if_pos hle]
    have hinc : int_incr ((j : Int) + 1) = ((j + 1 : Nat) : Int) + 1 := by
      rw [int_incr_eq _ (by unfold INT_MIN; omega) (by omega)]
      push_cast
      rfl
    have hcast : (j : Int) + 1 = ((j + 1 : Nat) : Int) := by push_cast; rfl
    rw [hinc, hcast]
    have h := ih (j + 1) (by omega)
    rw [play_trace_succ] at h
    exact h

/-- The loop of `play_the_gol` never ends when `iterations` is `INT_MAX`: the
condition `i <= iterations` holds for every value of the counter. -/
theorem play_loop_never_exits (WIDTH HEIGHT : Nat) (oob : Int → Int → Int → Int)
    (scratch : Int → Board) (wait_time_ms : Int) (fuel : Nat) (i : Int) (hi : i ≤ INT_MAX)
    (game_array : Board) (out : List Event) :
    play_loop WIDTH HEIGHT oob scratch wait_time_ms INT_MAX fuel i game_array out = none := by
  induction fuel generalizing i game_array out with
  | zero => rfl
  | succ n ih =>
    unfold play_loop
    rw [if_pos hi]
    exact ih _ (int_incr_le i) _ _

/-- For every `k` with `0 ≤ k < INT_MAX`, `play_the_gol(k, G0, wait_time_ms)`
returns, and it has rendered exactly `k + 1` grids: first `G0`, unlabelled, then
for `i = 1, ..., k`, in this order, the grid after `i` applications of
`gol_step`, labelled `i`. -/
theorem play_the_gol_renders (WIDTH HEIGHT : Nat) (oob : Int → Int → Int → Int)
    (scratch : Int → Board) (G0 : Board) (wait_time_ms : Int) (k : Nat)
    (hk : (k : Int) < INT_MAX) :
    ∃ events,
      play_the_gol WIDTH HEIGHT oob scratch (k + 1) (k : Int) G0 wait_time_ms
        = some (gol_steps WIDTH HEIGHT oob scratch G0 k, events) ∧
      rendered events = (none, print_array WIDTH HEIGHT G0) ::
        (List.range k).map (fun j =>
          (some ((j + 1 : Nat) : Int),
            print_array WIDTH HEIGHT (gol_steps WIDTH HEIGHT oob scratch G0 (j + 1)))) ∧
      (rendered events).length = k + 1 := by
  refine ⟨play_trace WIDTH HEIGHT oob scratch G0 wait_time_ms k, ?_, ?_, ?_⟩
  · have h := play_loop_runs WIDTH HEIGHT oob scratch G0 wait_time_ms k hk k 0 (by omega)
    simpa [play_the_gol, play_trace, gol_steps] using h
  · exact rendered_play_trace WIDTH HEIGHT oob scratch G0 wait_time_ms k
  · rw [rendered_play_trace]
    simp

/-! ## `copy_array` on pointers and on contents -/

/-- Writing into a cell the value it holds changes nothing. -/
theorem store_self (a : Board) (r c : Nat) : store a r c (a r c) = a := by
  funext r' c'
  unfold store
  split
  · rename_i h
    rw [h.1, h.2]
  · rfl

/-- A loop whose body leaves the state alone leaves the state alone. -/
theorem foldl_keep {σ ι : Type} (l : List ι) (m : σ) : l.foldl (fun m _ => m) m = m := by
  induction l with
  | nil => rfl
  | cons _ l ih => exact ih

/-- The inner loop of `copy_array` between two different arrays touches the
array `dst` only, and does to it what the loop on contents does. -/
theorem copy_columns_at (y src dst : Nat) (hne : src ≠ dst) (l : List Nat) (mem : Memory) :
    l.foldl (fun (mem : Memory) x =>
        Function.update mem dst (store (mem dst) y x (mem src y x))) mem
      = Function.update mem dst
          (l.foldl (fun d x => store d y x (mem src y x)) (mem dst)) := by
  induction l generalizing mem with
  | nil => simp
  | cons x l ih =>
    rw [List.foldl_cons, ih, List.foldl_cons]
    simp [Function.update_noteq hne]

/-- The two loops of `copy_array` between two different arrays touch the array
`dst` only, and do to it what the loops on contents do. -/
theorem copy_rows_at (WIDTH src dst : Nat) (hne : src ≠ dst) (l : List Nat) (mem : Memory) :
    l.foldl (fun (mem : Memory) y =>
        (List.range WIDTH).foldl (fun (mem : Memory) x =>
          Function.update mem dst (store (mem dst) y x (mem src y x))) mem) mem
      = Function.update mem dst
          (l.foldl (fun d y =>
            (List.range WIDTH).foldl (fun d x => store d y x (mem src y x)) d) (mem dst)) := by
  induction l generalizing mem with
  | nil => simp
  | cons y l ih =>
    rw [List.foldl_cons, copy_columns_at y src dst hne, ih, List.foldl_cons]
    simp [Function.update_noteq hne]

/-- Between two different arrays, `copy_array` on pointers leaves in `dst` what
`copy_array` on contents computes, and leaves every other array as it was. -/
theorem copy_array_at_of_ne (WIDTH HEIGHT src dst : Nat) (hne : src ≠ dst) (mem : Memory) :
    copy_array_at WIDTH HEIGHT src dst mem
      = Function.update mem dst (copy_array WIDTH HEIGHT (mem src) (mem dst)) := by
  unfold copy_array_at copy_array
  exact copy_rows_at WIDTH src dst hne _ mem

/-- When `src` and `dst` are the same array, `copy_array` changes nothing. -/
theorem copy_array_at_self (WIDTH HEIGHT p : Nat) (mem : Memory) :
    copy_array_at WIDTH HEIGHT p p mem = mem := by
  unfold copy_array_at
  have hbody : ∀ y : Nat, (fun (mem : Memory) (x : Nat) =>
      Function.update mem p (store (mem p) y x (mem p y x))) = fun mem _ => mem := by
    intro y
    funext mem x
    rw [store_self, Function.update_eq_self]
  simp only [hbody, foldl_keep]

/-! ## The boundary policy of `neighbor_count` -/

/-- The two loops of `neighbor_reads` unrolled: one conditional read per offset. -/
theorem neighbor_reads_eq (pos_x pos_y : Int) :
    neighbor_reads pos_x pos_y =
      (if considered pos_x pos_y (-1) (-1) then [(pos_y + -1, pos_x + -1)] else []) ++
      (if considered pos_x pos_y 0 (-1) then [(pos_y + -1, pos_x + 0)] else []) ++
      (if considered pos_x pos_y 1 (-1) then [(pos_y + -1, pos_x + 1)] else []) ++
      (if considered pos_x pos_y (-1) 0 then [(pos_y + 0, pos_x + -1)] else []) ++
      (if considered pos_x pos_y 0 0 then [(pos_y + 0, pos_x + 0)] else []) ++
      (if considered pos_x pos_y 1 0 then [(pos_y + 0, pos_x + 1)] else []) ++
      (if considered pos_x pos_y (-1) 1 then [(pos_y + 1, pos_x + -1)] else []) ++
      (if considered pos_x pos_y 0 1 then [(pos_y + 1, pos_x + 0)] else []) ++
      (if considered pos_x pos_y 1 1 then [(pos_y + 1, pos_x + 1)] else []) := by
  simp only [neighbor_reads, offsets, List.foldl, push_eq, List.nil_append]

/-- The read at the offset `(dx, dy)` is made exactly when the offset is not
`(0, 0)` and both coordinates of the neighbor are non-negative. -/
theorem mem_read_iff (pos_x pos_y r c dx dy : Int) :
    ((r, c) ∈ (if considered pos_x pos_y dx dy then [(pos_y + dy, pos_x + dx)] else [])) ↔
      (¬ (dx = 0 ∧ dy = 0) ∧ pos_x + dx ≥ 0 ∧ pos_y + dy ≥ 0 ∧
        r = pos_y + dy ∧ c = pos_x + dx) := by
  unfold considered
  split
  · rename_i h
    simp only [List.mem_singleton, Prod.mk.injEq]
    constructor
    · rintro ⟨h1, h2⟩
      exact ⟨fun hh => h.1 ⟨hh.2, hh.1⟩, by omega, by omega, h1, h2⟩
    · rintro ⟨-, -, -, h1, h2⟩
      exact ⟨h1, h2⟩
  · rename_i h
    simp only [List.not_mem_nil, false_iff]
    rintro ⟨h1, h2, h3, -, -⟩
    exact h ⟨fun hh => h1 ⟨hh.2, hh.1⟩, by omega, by omega⟩

/-- The reads of `neighbor_count` are the neighbors, at the offsets in
`{-1,0,1}²` other than `(0,0)`, whose two coordinates are non-negative. -/
theorem neighbor_reads_iff (pos_x pos_y r c : Int) :
    (r, c) ∈ neighbor_reads pos_x pos_y ↔
      ∃ dy ∈ offsets, ∃ dx ∈ offsets, ¬ (dx = 0 ∧ dy = 0) ∧ pos_x + dx ≥ 0 ∧ pos_y + dy ≥ 0 ∧
        r = pos_y + dy ∧ c = pos_x + dx := by
  rw [neighbor_reads_eq]
  simp only [List.mem_append]
  constructor
  · intro h
    rcases h with (((((((h | h) | h) | h) | h) | h) | h) | h) | h
    · exact ⟨-1, by simp [offsets], -1, by simp [offsets], (mem_read_iff _ _ _ _ _ _).mp h⟩
    · exact ⟨-1, by simp [offsets], 0, by simp [offsets], (mem_read_iff _ _ _ _ _ _).mp h⟩
    · exact ⟨-1, by simp [offsets], 1, by simp [offsets], (mem_read_iff _ _ _ _ _ _).mp h⟩
    · exact ⟨0, by simp [offsets], -1, by simp [offsets], (mem_read_iff _ _ _ _ _ _).mp h⟩
    · exact ⟨0, by simp [offsets], 0, by simp [offsets], (mem_read_iff _ _ _ _ _ _).mp h⟩
    · exact ⟨0, by simp [offsets], 1, by simp [offsets], (mem_read_iff _ _ _ _ _ _).mp h⟩
    · exact ⟨1, by simp [offsets], -1, by simp [offsets], (mem_read_iff _ _ _ _ _ _).mp h⟩
    · exact ⟨1, by simp [offsets], 0, by simp [offsets], (mem_read_iff _ _ _ _ _ _).mp h⟩
    · exact ⟨1, by simp [offsets], 1, by simp [offsets], (mem_read_iff _ _ _ _ _ _).mp h⟩
  · rintro ⟨dy, hdy, dx, hdx, h⟩
    have hm := (mem_read_iff pos_x pos_y r c dx dy).mpr h
    simp only [offsets, List.mem_cons, List.mem_singleton, List.not_mem_nil, or_false] at hdy hdx
    rcases hdy with rfl | rfl | rfl <;> rcases hdx with rfl | rfl | rfl <;>
      simp only [hm, true_or, or_true]

/-- The number of kept elements, one element at a time. -/
theorem filter_length_cons {α : Type} (p : α → Bool) (a : α) (l : List α) :
    ((a :: l).filter p).length = (if p a then 1 else 0) + (l.filter p).length := by
  rw [List.filter_cons]
  split <;> simp [Nat.add_comm]

/-- With `pos_x = 0` the offsets with `x = -1` are not considered. -/
theorem hit_left (WIDTH HEIGHT : Nat) (oob : Int → Int → Int) (pos_y : Int) (G : Board)
    (dy : Int) : hit WIDTH HEIGHT oob 0 pos_y G (-1) dy = 0 := by
  simp [hit, considered]

/-- With `pos_y = 0` the offsets with `y = -1` are not considered. -/
theorem hit_top (WIDTH HEIGHT : Nat) (oob : Int → Int → Int) (pos_x : Int) (G : Board)
    (dx : Int) : hit WIDTH HEIGHT oob pos_x 0 G dx (-1) = 0 := by
  simp [hit, considered]

/-! ## `generate_board_randomly` -/

/-- The inner loop of `generate_board_randomly` on row `y`, entered after `s.2`
calls of `rand()`: the cell `(c, y)` gets the result of the call number
`s.2 + c`, reduced by `% 2`. -/
theorem generate_columns (rand : Nat → Int) (y WIDTH : Nat) (s : Board × Nat) :
    (List.range WIDTH).foldl (generate_cell rand y) s
      = (fun r c => if r = y ∧ c < WIDTH then (rand (s.2 + c)).tmod 2 else s.1 r c,
          s.2 + WIDTH) := by
  induction WIDTH with
  | zero => simp
  | succ n ih =>
    rw [List.range_succ, List.foldl_append, List.foldl_cons, List.foldl_nil, ih]
    unfold generate_cell
    refine Prod.ext ?_ (by simp only []; omega)
    funext r c
    simp only [store]
    by_cases hr : r = y
    · rcases Nat.lt_trichotomy c n with h | h | h
      · have h1 : c ≠ n := by omega
        have h2 : c < n + 1 := by omega
        simp [hr, h, h1, h2]
      · simp [hr, h]
      · have h1 : c ≠ n := by omega
        have h2 : ¬ c < n + 1 := by omega
        have h3 : ¬ c < n := by omega
        simp [hr, h1, h2, h3]
    · simp [hr]

/-- The two loops of `generate_board_randomly`, entered after `s.2` calls of
`rand()`: the cell `(c, r)` gets the result of the call number
`s.2 + r * WIDTH + c`, reduced by `% 2`. -/
theorem generate_rows (rand : Nat → Int) (WIDTH HEIGHT : Nat) (s : Board × Nat) :
    (List.range HEIGHT).foldl (fun s y => (List.range WIDTH).foldl (generate_cell rand y) s) s
      = (fun r c => if r < HEIGHT ∧ c < WIDTH then (rand (s.2 + r * WIDTH + c)).tmod 2
          else s.1 r c, s.2 + HEIGHT * WIDTH) := by
  induction HEIGHT with
  | zero => simp
  | succ n ih =>
    rw [List.range_succ, List.foldl_append, List.foldl_cons, List.foldl_nil, ih,
      generate_columns]
    refine Prod.ext ?_ (by simp only []; rw [Nat.succ_mul]; omega)
    funext r c
    simp only []
    by_cases hc : c < WIDTH
    · rcases Nat.lt_trichotomy r n with h | h | h
      · have h1 : r ≠ n := by omega
        have h2 : r < n + 1 := by omega
        simp [h, h1, h2, hc]
      · subst h
        simp [hc, Nat.add_assoc]
      · have h1 : r ≠ n := by omega
        have h2 : ¬ r < n + 1 := by omega
        have h3 : ¬ r < n := by omega
        simp [h1, h2, h3]
    · simp [hc]

/-- What `generate_board_randomly` leaves in every cell: inside the array, the
result of the call number `r * WIDTH + c` of `rand()`, reduced by `% 2`;
outside, nothing is written. -/
theorem generate_board_randomly_cell (WIDTH HEIGHT : Nat) (rand : Nat → Int)
    (out_array : Board) (r c : Nat) :
    generate_board_randomly WIDTH HEIGHT rand out_array r c
      = if r < HEIGHT ∧ c < WIDTH then (rand (r * WIDTH + c)).tmod 2 else out_array r c := by
  unfold generate_board_randomly
  rw [generate_rows]
  simp

/-- A non-negative `int` reduced by `% 2` is `0` or `1`. -/
theorem tmod_two_of_nonneg (v : Int) (hv : 0 ≤ v) : v.tmod 2 = 0 ∨ v.tmod 2 = 1 := by
  rw [Int.tmod_eq_emod hv (by decide)]
  omega

/-! ## The claims -/

/-- C1: for every grid of 0/1 cells and every coordinate `(x, y)` inside it (so
that the width and the height are at least 1), the cell `(x, y)` holds `1`
after `gol_step` exactly when it held `1` and `n` is 2 or 3, or held `0` and `n`
is 3, and holds `0` otherwise; `n` is `neighbor_count(x, y)` on the grid as it
was before the step, although the step writes into that same grid. -/
theorem gol_step_conway_rule (WIDTH HEIGHT : Nat) (oob : Int → Int → Int)
    (scratch G : Board)
    (h01 : ∀ r, r < HEIGHT → ∀ c, c < WIDTH → G r c = 0 ∨ G r c = 1)
    (x y : Nat) (hx : x < WIDTH) (hy : y < HEIGHT) :
    (gol_step WIDTH HEIGHT oob scratch G y x = 1 ↔
      (G y x = 1 ∧ (neighbor_count WIDTH HEIGHT oob x y G = 2 ∨
          neighbor_count WIDTH HEIGHT oob x y G = 3)) ∨
      (G y x = 0 ∧ neighbor_count WIDTH HEIGHT oob x y G = 3)) ∧
    (¬ ((G y x = 1 ∧ (neighbor_count WIDTH HEIGHT oob x y G = 2 ∨
          neighbor_count WIDTH HEIGHT oob x y G = 3)) ∨
        (G y x = 0 ∧ neighbor_count WIDTH HEIGHT oob x y G = 3)) →
      gol_step WIDTH HEIGHT oob scratch G y x = 0) := by
  rw [gol_step_cell]
  simp only [hx, hy, and_self, if_true, next_state]
  rcases h01 y hy x hx with h | h
  · rw [h]
    by_cases h3 : neighbor_count WIDTH HEIGHT oob x y G = 3 <;> simp [h3]
  · rw [h]
    by_cases h2 : neighbor_count WIDTH HEIGHT oob x y G = 2 <;>
      by_cases h3 : neighbor_count WIDTH HEIGHT oob x y G = 3 <;> simp [h2, h3]

/-- C1, on the 3 x 3 board `tee` at the cell `(x, y) = (1, 2)`: a dead cell
with three live neighbors. -/
theorem gol_step_conway_rule_witness :
    (∀ r, r < 3 → ∀ c, c < 3 → tee r c = 0 ∨ tee r c = 1) ∧
    ((gol_step 3 3 zeros blank tee 2 1 = 1 ↔
      (tee 2 1 = 1 ∧ (neighbor_count 3 3 zeros ((1 : Nat) : Int) ((2 : Nat) : Int) tee = 2 ∨
          neighbor_count 3 3 zeros ((1 : Nat) : Int) ((2 : Nat) : Int) tee = 3)) ∨
      (tee 2 1 = 0 ∧ neighbor_count 3 3 zeros ((1 : Nat) : Int) ((2 : Nat) : Int) tee = 3)) ∧
    (¬ ((tee 2 1 = 1 ∧ (neighbor_count 3 3 zeros ((1 : Nat) : Int) ((2 : Nat) : Int) tee = 2 ∨
          neighbor_count 3 3 zeros ((1 : Nat) : Int) ((2 : Nat) : Int) tee = 3)) ∨
        (tee 2 1 = 0 ∧ neighbor_count 3 3 zeros ((1 : Nat) : Int) ((2 : Nat) : Int) tee = 3)) →
      gol_step 3 3 zeros blank tee 2 1 = 0)) :=
  ⟨by decide, gol_step_conway_rule 3 3 zeros blank tee (by decide) 1 2 (by decide) (by decide)⟩

/-- C2: on the 2 x 3 grid whose only live cell is `(0, 2)`, the cell `(1, 0)` of
the right column has no live neighbor inside the grid, so the count the claim
describes is 0.  `neighbor_count(1, 0)` reads `[0][2]` and `[1][2]`, whose column
lies outside the grid; in row-major memory `[1][2]` is the live cell `(0, 2)`,
and the function returns 1. -/
theorem neighbor_count_right_column_differs :
    spec_live_neighbors 2 3 corner_2x3 1 0 = 0 ∧
    neighbor_reads 1 0 = [(0, 0), (0, 2), (1, 0), (1, 1), (1, 2)] ∧
    ¬ in_range 2 3 0 2 ∧ ¬ in_range 2 3 1 2 ∧
    neighbor_count 2 3 (row_major 2 3 corner_2x3 (fun _ => 0)) 1 0 corner_2x3 = 1 := by
  decide

/-- C3: on the 1 x 1 grid, all three reads of `neighbor_count(0, 0)` have a
column index or a row index outside the grid: `[0][1]`, `[1][0]` and `[1][1]`. -/
theorem neighbor_count_reads_out_of_range :
    neighbor_reads 0 0 = [(0, 1), (1, 0), (1, 1)] ∧
    ¬ in_range 1 1 0 1 ∧ ¬ in_range 1 1 1 0 ∧ ¬ in_range 1 1 1 1 := by
  decide

/-- C4: two copies of the 1 x 1 dead grid made with `copy_array` hold the same
cell, and `gol_step` leaves the cell alive in one and dead in the other when the
three words read outside the grid hold `1` during one call and `0` during the
other: the result depends on storage outside the grid. -/
theorem gol_step_depends_on_outside_storage :
    copy_array 1 1 blank tee 0 0 = 0 ∧ copy_array 1 1 blank single_cell 0 0 = 0 ∧
    gol_step 1 1 ones blank (copy_array 1 1 blank tee) 0 0 = 1 ∧
    gol_step 1 1 zeros blank (copy_array 1 1 blank single_cell) 0 0 = 0 := by
  decide

/-- C5 as stated fails: `gol_step` writes into the grid it is given.  On the
3 x 3 board whose only live cell is the middle one, that cell holds `1` before
the call and `0` after it. -/
theorem gol_step_mutates_its_argument :
    single_cell 1 1 = 1 ∧ gol_step 3 3 zeros blank single_cell 1 1 = 0 := by
  decide

/-- C5, amended: `gol_step` updates the grid it is given in place.  After the
call a cell inside the grid holds `0` if it held `1` and `n` is neither 2 nor 3,
holds `1` if it did not hold `1` and `n` is 3, and holds what it held before in
every other case; `n` is `neighbor_count` at the cell on the content the grid
had before the call.  Nothing outside the grid is written. -/
theorem gol_step_in_place (WIDTH HEIGHT : Nat) (oob : Int → Int → Int) (scratch G : Board) :
    (∀ y, y < HEIGHT → ∀ x, x < WIDTH →
      (G y x = 1 → (neighbor_count WIDTH HEIGHT oob x y G ≠ 2 ∧
          neighbor_count WIDTH HEIGHT oob x y G ≠ 3) →
        gol_step WIDTH HEIGHT oob scratch G y x = 0) ∧
      (G y x = 1 → (neighbor_count WIDTH HEIGHT oob x y G = 2 ∨
          neighbor_count WIDTH HEIGHT oob x y G = 3) →
        gol_step WIDTH HEIGHT oob scratch G y x = G y x) ∧
      (G y x ≠ 1 → neighbor_count WIDTH HEIGHT oob x y G = 3 →
        gol_step WIDTH HEIGHT oob scratch G y x = 1) ∧
      (G y x ≠ 1 → neighbor_count WIDTH HEIGHT oob x y G ≠ 3 →
        gol_step WIDTH HEIGHT oob scratch G y x = G y x)) ∧
    (∀ r c, ¬ (r < HEIGHT ∧ c < WIDTH) → gol_step WIDTH HEIGHT oob scratch G r c = G r c) := by
  constructor
  · intro y hy x hx
    rw [gol_step_cell]
    simp only [hx, hy, and_self, if_true, next_state]
    refine ⟨?_, ?_, ?_, ?_⟩
    · intro h1 h2
      simp [h1, h2]
    · intro h1 h2
      rcases h2 with h2 | h2 <;> simp [h1, h2]
    · intro h1 h2
      simp [h1, h2]
    · intro h1 h2
      simp [h1, h2]
  · intro r c h
    rw [gol_step_cell]
    simp [h]

/-- C5 amended, on the 3 x 3 board `tee`: the dead cell `(1, 2)` has three live
neighbors and holds `1` after the call. -/
theorem gol_step_in_place_witness :
    (tee 2 1 ≠ 1 ∧ neighbor_count 3 3 zeros ((1 : Nat) : Int) ((2 : Nat) : Int) tee = 3) ∧
    gol_step 3 3 zeros blank tee 2 1 = 1 :=
  ⟨by decide, ((gol_step_in_place 3 3 zeros blank tee).1 2 (by decide) 1 (by decide)).2.2.1
    (by decide) (by decide)⟩

/-- C6: on the 5 x 5 blinker `gol_step` counts, for the bottom-row cell `(1, 4)`,
the three words `[5][0]`, `[5][1]`, `[5][2]` that follow the array.  When the
memory after the array holds `1` there, the cell `(1, 4)` is born, and the grid
after the step is not the vertical triple; when every read outside the grid
yields `0`, the step does give the vertical triple. -/
theorem gol_step_blinker_bottom_row :
    (5, 0) ∈ neighbor_reads 1 4 ∧ (5, 1) ∈ neighbor_reads 1 4 ∧ (5, 2) ∈ neighbor_reads 1 4 ∧
    gol_step 5 5 (row_major 5 5 blinker_h (fun _ => 1)) blank blinker_h 4 1 = 1 ∧
    blinker_v 4 1 = 0 ∧
    (∀ r, r < 5 → ∀ c, c < 5 → gol_step 5 5 zeros blank blinker_h r c = blinker_v r c) := by
  decide

/-- C7: on the 4 x 4 block `gol_step` counts, for the bottom-row cell `(0, 3)`,
the live cell `(1, 2)` and the two words `[4][0]`, `[4][1]` that follow the
array.  When the memory after the array holds `1` there, the count is 3 and the
cell `(0, 3)` is born: the block is changed by the step. -/
theorem gol_step_block_bottom_row :
    (4, 0) ∈ neighbor_reads 0 3 ∧ (4, 1) ∈ neighbor_reads 0 3 ∧
    neighbor_count 4 4 (row_major 4 4 block (fun _ => 1)) 0 3 block = 3 ∧
    block 3 0 = 0 ∧
    gol_step 4 4 (row_major 4 4 block (fun _ => 1)) blank block 3 0 = 1 := by
  decide

/-- C8: a cell `(x, y)` that is alive, whose eight neighbors all lie inside the
grid (`1 ≤ x`, `x + 1 < WIDTH`, `1 ≤ y`, `y + 1 < HEIGHT`) and none of whose
neighbors is alive, is dead after one `gol_step`, whatever the rest of the grid
and the memory around the grid hold. -/
theorem gol_step_isolated_cell_dies (WIDTH HEIGHT : Nat) (oob : Int → Int → Int)
    (scratch G : Board) (x y : Nat)
    (hx1 : 1 ≤ x) (hx2 : x + 1 < WIDTH) (hy1 : 1 ≤ y) (hy2 : y + 1 < HEIGHT)
    (halive : G y x = 1)
    (hdead : ∀ r, r < HEIGHT → ∀ c, c < WIDTH → adjacent x y c r → G r c ≠ 1) :
    gol_step WIDTH HEIGHT oob scratch G y x = 0 := by
  have hhit : ∀ dx dy : Int, (dx = -1 ∨ dx = 0 ∨ dx = 1) → (dy = -1 ∨ dy = 0 ∨ dy = 1) →
      hit WIDTH HEIGHT oob (x : Int) (y : Int) G dx dy = 0 := by
    intro dx dy hdx hdy
    unfold hit
    rw [if_neg]
    rintro ⟨⟨hne, -, -⟩, h1⟩
    have hin : in_range WIDTH HEIGHT ((y : Int) + dy) ((x : Int) + dx) := by
      unfold in_range
      omega
    unfold index at h1
    rw [if_pos hin] at h1
    refine hdead _ (by omega) _ (by omega) ?_ h1
    unfold adjacent
    refine ⟨by omega, by omega, ?_⟩
    rintro ⟨e1, e2⟩
    apply hne
    omega
  have hn : neighbor_count WIDTH HEIGHT oob (x : Int) (y : Int) G = 0 := by
    rw [neighbor_count_eq_sum]
    simp [hhit]
  rw [gol_step_cell]
  have hxw : x < WIDTH := by omega
  have hyh : y < HEIGHT := by omega
  simp [hxw, hyh, next_state, halive, hn]

/-- C8, on the 3 x 3 board whose only live cell is the middle one. -/
theorem gol_step_isolated_cell_dies_witness :
    (1 ≤ 1 ∧ 1 + 1 < 3 ∧ single_cell 1 1 = 1 ∧
      (∀ r, r < 3 → ∀ c, c < 3 → adjacent 1 1 c r → single_cell r c ≠ 1)) ∧
    gol_step 3 3 ones blank single_cell 1 1 = 0 :=
  ⟨by decide, gol_step_isolated_cell_dies 3 3 ones blank single_cell 1 1
    (by decide) (by decide) (by decide) (by decide) (by decide) (by decide)⟩

/-- C9: on the 3 x 3 grid in which every cell is dead, `gol_step` counts for the
bottom-row cell `(1, 2)` the three words `[3][0]`, `[3][1]`, `[3][2]` that
follow the array.  When the memory after the array holds `1` there, the count
is 3 and the cell is born: the grid after the step is not all dead. -/
theorem gol_step_dead_grid_bottom_row :
    (∀ r, r < 3 → ∀ c, c < 3 → blank r c = 0) ∧
    neighbor_reads 1 2 = [(1, 0), (1, 1), (1, 2), (2, 0), (2, 2), (3, 0), (3, 1), (3, 2)] ∧
    neighbor_count 3 3 (row_major 3 3 blank (fun _ => 1)) 1 2 blank = 3 ∧
    gol_step 3 3 (row_major 3 3 blank (fun _ => 1)) blank blank 2 1 = 1 := by
  decide

/-- C10: with `iterations = 2147483647`, the largest `int`, `play_the_gol` does
not return within any number of evaluations of its loop condition: `i <=
iterations` holds for every `int`, and `i++` at 2147483647 wraps to -2147483648,
so the loop is not left after the pass labelled 2147483647. -/
theorem play_the_gol_int_max (WIDTH HEIGHT : Nat) (oob : Int → Int → Int → Int)
    (scratch : Int → Board) (G0 : Board) (wait_time_ms : Int) (fuel : Nat) :
    play_the_gol WIDTH HEIGHT oob scratch fuel 2147483647 G0 wait_time_ms = none ∧
    int_incr 2147483647 = -2147483648 ∧ (-2147483648 : Int) ≤ 2147483647 := by
  refine ⟨?_, by decide, by decide⟩
  exact play_loop_never_exits WIDTH HEIGHT oob scratch wait_time_ms fuel 1 (by decide) _ _

/-- C11: with `iterations = 2147483647`, the largest `int`, the loop of
`play_the_gol` does not terminate: entered with the counter at 1, with any board
and any effects so far, it has not ended after any number of evaluations of its
condition.  One below, with `iterations = 2147483646`, `play_the_gol` returns
and has applied `gol_step` exactly 2147483646 times. -/
theorem play_loop_int_max_never_ends (WIDTH HEIGHT : Nat) (oob : Int → Int → Int → Int)
    (scratch : Int → Board) (G0 : Board) (out : List Event) (wait_time_ms : Int) :
    (∀ fuel, play_loop WIDTH HEIGHT oob scratch wait_time_ms 2147483647 fuel 1 G0 out = none) ∧
    (∃ events, play_the_gol WIDTH HEIGHT oob scratch (2147483646 + 1)
        ((2147483646 : Nat) : Int) G0 wait_time_ms
      = some (gol_steps WIDTH HEIGHT oob scratch G0 2147483646, events)) := by
  constructor
  · intro fuel
    exact play_loop_never_exits WIDTH HEIGHT oob scratch wait_time_ms fuel 1 (by decide) _ _
  · obtain ⟨events, h, -⟩ :=
      play_the_gol_renders WIDTH HEIGHT oob scratch G0 wait_time_ms 2147483646 (by decide)
    exact ⟨events, h⟩

/-- C12: for every grid with arbitrary integer cells, every content of the
memory around it and every coordinate, in range or not, `neighbor_count` returns
an integer `n` with `0 ≤ n ≤ 8`. -/
theorem neighbor_count_bounds (WIDTH HEIGHT : Nat) (oob : Int → Int → Int)
    (pos_x pos_y : Int) (G : Board) :
    0 ≤ neighbor_count WIDTH HEIGHT oob pos_x pos_y G ∧
    neighbor_count WIDTH HEIGHT oob pos_x pos_y G ≤ 8 := by
  rw [neighbor_count_eq_sum]
  have h1 := hit_le_one WIDTH HEIGHT oob pos_x pos_y G (-1) (-1)
  have h2 := hit_le_one WIDTH HEIGHT oob pos_x pos_y G 0 (-1)
  have h3 := hit_le_one WIDTH HEIGHT oob pos_x pos_y G 1 (-1)
  have h4 := hit_le_one WIDTH HEIGHT oob pos_x pos_y G (-1) 0
  have h5 := hit_center WIDTH HEIGHT oob pos_x pos_y G
  have h6 := hit_le_one WIDTH HEIGHT oob pos_x pos_y G 1 0
  have h7 := hit_le_one WIDTH HEIGHT oob pos_x pos_y G (-1) 1
  have h8 := hit_le_one WIDTH HEIGHT oob pos_x pos_y G 0 1
  have h9 := hit_le_one WIDTH HEIGHT oob pos_x pos_y G 1 1
  omega

/-- C13: after `copy_array(src, dst)` every cell of `dst` inside the grid
equals the cell of `src` at the same coordinate as it was before the call, the
array `src` holds what it held before the call, and so does every array other
than `dst`; this holds also when `src` and `dst` are the same array. -/
theorem copy_array_copies (WIDTH HEIGHT : Nat) (src dst : Nat) (mem : Memory) :
    (∀ y, y < HEIGHT → ∀ x, x < WIDTH →
      copy_array_at WIDTH HEIGHT src dst mem dst y x = mem src y x) ∧
    copy_array_at WIDTH HEIGHT src dst mem src = mem src ∧
    (∀ p, p ≠ dst → copy_array_at WIDTH HEIGHT src dst mem p = mem p) := by
  by_cases hne : src = dst
  · subst hne
    rw [copy_array_at_self]
    exact ⟨fun _ _ _ _ => rfl, rfl, fun _ _ => rfl⟩
  · rw [copy_array_at_of_ne WIDTH HEIGHT src dst hne]
    refine ⟨?_, ?_, ?_⟩
    · intro y hy x hx
      rw [Function.update_same, copy_array_cell]
      simp [hy, hx]
    · rw [Function.update_noteq hne]
    · intro p hp
      rw [Function.update_noteq hp]

/-- C14: in `initial_config`, started from the initial values of the globals,
a prompt whose line is blank or cannot be read leaves its own parameter at the
default (`WIDTH = 20`, `HEIGHT = 20`, `ITERATIONS = 100`, `WAIT_TIME_MS = 100`),
whatever the other three prompts read; and what a prompt reads has no effect on
the other three parameters: replacing its line by any other line `l` leaves
them as they are. -/
theorem initial_config_defaults (strtol : List Char → Int)
    (line1 line2 line3 line4 : Option Line) :
    (blank_or_missing line1 →
      (initial_config strtol line1 line2 line3 line4 defaults).WIDTH = 20) ∧
    (blank_or_missing line2 →
      (initial_config strtol line1 line2 line3 line4 defaults).HEIGHT = 20) ∧
    (blank_or_missing line3 →
      (initial_config strtol line1 line2 line3 line4 defaults).ITERATIONS = 100) ∧
    (blank_or_missing line4 →
      (initial_config strtol line1 line2 line3 line4 defaults).WAIT_TIME_MS = 100) ∧
    (∀ l,
      (initial_config strtol l line2 line3 line4 defaults).HEIGHT
        = (initial_config strtol line1 line2 line3 line4 defaults).HEIGHT ∧
      (initial_config strtol l line2 line3 line4 defaults).ITERATIONS
        = (initial_config strtol line1 line2 line3 line4 defaults).ITERATIONS ∧
      (initial_config strtol l line2 line3 line4 defaults).WAIT_TIME_MS
        = (initial_config strtol line1 line2 line3 line4 defaults).WAIT_TIME_MS) ∧
    (∀ l,
      (initial_config strtol line1 l line3 line4 defaults).WIDTH
        = (initial_config strtol line1 line2 line3 line4 defaults).WIDTH ∧
      (initial_config strtol line1 l line3 line4 defaults).ITERATIONS
        = (initial_config strtol line1 line2 line3 line4 defaults).ITERATIONS ∧
      (initial_config strtol line1 l line3 line4 defaults).WAIT_TIME_MS
        = (initial_config strtol line1 line2 line3 line4 defaults).WAIT_TIME_MS) ∧
    (∀ l,
      (initial_config strtol line1 line2 l line4 defaults).WIDTH
        = (initial_config strtol line1 line2 line3 line4 defaults).WIDTH ∧
      (initial_config strtol line1 line2 l line4 defaults).HEIGHT
        = (initial_config strtol line1 line2 line3 line4 defaults).HEIGHT ∧
      (initial_config strtol line1 line2 l line4 defaults).WAIT_TIME_MS
        = (initial_config strtol line1 line2 line3 line4 defaults).WAIT_TIME_MS) ∧
    (∀ l,
      (initial_config strtol line1 line2 line3 l defaults).WIDTH
        = (initial_config strtol line1 line2 line3 line4 defaults).WIDTH ∧
      (initial_config strtol line1 line2 line3 l defaults).HEIGHT
        = (initial_config strtol line1 line2 line3 line4 defaults).HEIGHT ∧
      (initial_config strtol line1 line2 line3 l defaults).ITERATIONS
        = (initial_config strtol line1 line2 line3 line4 defaults).ITERATIONS) := by
  have hkeep : ∀ (line : Option Line) (v : Int), blank_or_missing line →
      read_setting strtol line v = v := by
    intro line v h
    cases line with
    | none => rfl
    | some l =>
      unfold blank_or_missing at h
      simp only [] at h
      simp [read_setting, h]
  refine ⟨?_, ?_, ?_, ?_, ?_, ?_, ?_, ?_⟩
  · intro h
    simp only [initial_config, defaults, hkeep line1 _ h]
  · intro h
    simp only [initial_config, defaults, hkeep line2 _ h]
  · intro h
    simp only [initial_config, defaults, hkeep line3 _ h]
  · intro h
    simp only [initial_config, defaults, hkeep line4 _ h]
  · intro l
    exact ⟨rfl, rfl, rfl⟩
  · intro l
    exact ⟨rfl, rfl, rfl⟩
  · intro l
    exact ⟨rfl, rfl, rfl⟩
  · intro l
    exact ⟨rfl, rfl, rfl⟩

/-- C14, with a failed read at the width prompt, a blank line at the height
prompt, the line `7` at the iterations prompt and a failed read at the wait-time
prompt: the width stays 20. -/
theorem initial_config_defaults_witness :
    blank_or_missing none ∧
    (initial_config (fun _ => 7) none (some ⟨'\n', []⟩) (some ⟨'7', ['\n']⟩) none defaults).WIDTH
      = 20 :=
  ⟨by decide, (initial_config_defaults (fun _ => 7) none (some ⟨'\n', []⟩)
    (some ⟨'7', ['\n']⟩) none).1 (by decide)⟩

/-- C15: `neighbor_count` reads the array at an index pair exactly when the
pair is a neighbor `(x+dx, y+dy)`, `(dx, dy)` in `{-1,0,1}²` other than `(0,0)`,
with `x+dx ≥ 0` and `y+dy ≥ 0`; and at every cell `(x, y)` that is not on the
right column or the bottom row (`x+1 < WIDTH`, `y+1 < HEIGHT`) the result is the
number of cells equal to `1` among those neighbors, whatever the memory around
the grid holds. -/
theorem neighbor_count_boundary_policy (WIDTH HEIGHT : Nat) (oob : Int → Int → Int)
    (G : Board) (x y : Nat) (hx : x + 1 < WIDTH) (hy : y + 1 < HEIGHT) :
    (∀ r c : Int, (r, c) ∈ neighbor_reads x y ↔
      ∃ dy ∈ offsets, ∃ dx ∈ offsets, ¬ (dx = 0 ∧ dy = 0) ∧ (x : Int) + dx ≥ 0 ∧
        (y : Int) + dy ≥ 0 ∧ r = (y : Int) + dy ∧ c = (x : Int) + dx) ∧
    neighbor_count WIDTH HEIGHT oob x y G = live_among_nonnegative G x y := by
  refine ⟨fun r c => neighbor_reads_iff x y r c, ?_⟩
  have hhit : ∀ dx dy : Int, (dx = -1 ∨ dx = 0 ∨ dx = 1) → (dy = -1 ∨ dy = 0 ∨ dy = 1) →
      hit WIDTH HEIGHT oob (x : Int) (y : Int) G dx dy
        = if decide ((dx, dy) ≠ ((0 : Int), (0 : Int)) ∧ (x : Int) + dx ≥ 0 ∧ (y : Int) + dy ≥ 0 ∧
            G ((y : Int) + dy).toNat ((x : Int) + dx).toNat = 1) = true then 1 else 0 := by
    intro dx dy hdx hdy
    unfold hit considered index
    by_cases hc : ¬ (dy = 0 ∧ dx = 0) ∧ dy + (y : Int) ≥ 0 ∧ dx + (x : Int) ≥ 0
    · have hin : in_range WIDTH HEIGHT ((y : Int) + dy) ((x : Int) + dx) := by
        unfold in_range
        omega
      have hne : (dx, dy) ≠ ((0 : Int), (0 : Int)) := by
        intro h
        simp only [Prod.mk.injEq] at h
        exact hc.1 ⟨h.2, h.1⟩
      have h1 : (x : Int) + dx ≥ 0 := by omega
      have h2 : (y : Int) + dy ≥ 0 := by omega
      simp only [hc, hin, hne, h1, h2, if_true, true_and, not_false_eq_true, and_self,
        decide_eq_true_eq, ne_eq]
    · have hn : ¬ ((dx, dy) ≠ ((0 : Int), (0 : Int)) ∧ (x : Int) + dx ≥ 0 ∧ (y : Int) + dy ≥ 0 ∧
            G ((y : Int) + dy).toNat ((x : Int) + dx).toNat = 1) := by
        rintro ⟨h1, h2, h3, -⟩
        apply hc
        refine ⟨?_, by omega, by omega⟩
        rintro ⟨e1, e2⟩
        apply h1
        rw [e1, e2]
      rw [if_neg (fun h => hc h.1), if_neg (by rw [decide_eq_true_eq]; exact hn)]
  rw [neighbor_count_eq_sum]
  simp only [live_among_nonnegative, offsets, List.flatMap_cons, List.flatMap_nil, List.map_cons,
    List.map_nil, List.cons_append, List.nil_append, List.append_nil, filter_length_cons,
    List.filter_nil, List.length_nil]
  rw [hhit (-1) (-1) (by simp) (by simp), hhit 0 (-1) (by simp) (by simp),
    hhit 1 (-1) (by simp) (by simp), hhit (-1) 0 (by simp) (by simp),
    hhit 0 0 (by simp) (by simp), hhit 1 0 (by simp) (by simp),
    hhit (-1) 1 (by simp) (by simp), hhit 0 1 (by simp) (by simp),
    hhit 1 1 (by simp) (by simp)]
  congr 1
  omega

/-- C15, on the 3 x 3 board `tee` at the corner cell `(0, 0)`: the neighbors
with non-negative coordinates are `(1,0)`, `(0,1)`, `(1,1)`, all three alive. -/
theorem neighbor_count_boundary_policy_witness :
    (0 + 1 < 3 ∧ 0 + 1 < 3) ∧ live_among_nonnegative tee ((0 : Nat) : Int) ((0 : Nat) : Int) = 3 ∧
    neighbor_count 3 3 ones ((0 : Nat) : Int) ((0 : Nat) : Int) tee
      = live_among_nonnegative tee ((0 : Nat) : Int) ((0 : Nat) : Int) :=
  ⟨by decide, by decide,
    (neighbor_count_boundary_policy 3 3 ones tee 0 0 (by decide) (by decide)).2⟩

/-- C16: for every grid and every content of the memory around it,
`neighbor_count(x, y)` is at most 5 whenever `x = 0` or `y = 0`, and
`neighbor_count(0, 0)` is at most 3. -/
theorem neighbor_count_near_edge (WIDTH HEIGHT : Nat) (oob : Int → Int → Int) (G : Board) :
    (∀ x y : Int, (x = 0 ∨ y = 0) → neighbor_count WIDTH HEIGHT oob x y G ≤ 5) ∧
    neighbor_count WIDTH HEIGHT oob 0 0 G ≤ 3 := by
  have hle := hit_le_one WIDTH HEIGHT oob
  have hc := hit_center WIDTH HEIGHT oob
  constructor
  · intro x y hxy
    rw [neighbor_count_eq_sum]
    have h1 := hle x y G (-1) (-1)
    have h2 := hle x y G 0 (-1)
    have h3 := hle x y G 1 (-1)
    have h4 := hle x y G (-1) 0
    have h5 := hc x y G
    have h6 := hle x y G 1 0
    have h7 := hle x y G (-1) 1
    have h8 := hle x y G 0 1
    have h9 := hle x y G 1 1
    rcases hxy with rfl | rfl
    · have l1 := hit_left WIDTH HEIGHT oob y G (-1)
      have l2 := hit_left WIDTH HEIGHT oob y G 0
      have l3 := hit_left WIDTH HEIGHT oob y G 1
      omega
    · have t1 := hit_top WIDTH HEIGHT oob x G (-1)
      have t2 := hit_top WIDTH HEIGHT oob x G 0
      have t3 := hit_top WIDTH HEIGHT oob x G 1
      omega
  · rw [neighbor_count_eq_sum]
    have h6 := hle 0 0 G 1 0
    have h8 := hle 0 0 G 0 1
    have h9 := hle 0 0 G 1 1
    have h5 := hc 0 0 G
    have l1 := hit_left WIDTH HEIGHT oob 0 G (-1)
    have l2 := hit_left WIDTH HEIGHT oob 0 G 0
    have l3 := hit_left WIDTH HEIGHT oob 0 G 1
    have t2 := hit_top WIDTH HEIGHT oob 0 G 0
    have t3 := hit_top WIDTH HEIGHT oob 0 G 1
    omega

/-- C16, on the 3 x 3 board `tee` at the left-column cell `(0, 2)`, with memory
around the grid that yields `1` at every read. -/
theorem neighbor_count_near_edge_witness :
    ((0 : Int) = 0 ∨ (2 : Int) = 0) ∧ neighbor_count 3 3 ones 0 2 tee ≤ 5 :=
  ⟨by decide, (neighbor_count_near_edge 3 3 ones tee).1 0 2 (by decide)⟩

/-- C17: `generate_board_randomly` leaves `0` or `1` in every cell of the grid
when every result of `rand()` is non-negative; `gol_step` on a grid whose cells
are all `0` or `1` leaves `0` or `1` in every cell, whatever the memory around
the grid holds; and so does `copy_array` in the copy. -/
theorem grid_operations_keep_zero_one (WIDTH HEIGHT : Nat) :
    (∀ (rand : Nat → Int) (out_array : Board), (∀ k, 0 ≤ rand k) →
      ∀ y, y < HEIGHT → ∀ x, x < WIDTH →
        generate_board_randomly WIDTH HEIGHT rand out_array y x = 0 ∨
        generate_board_randomly WIDTH HEIGHT rand out_array y x = 1) ∧
    (∀ (oob : Int → Int → Int) (scratch G : Board),
      (∀ r, r < HEIGHT → ∀ c, c < WIDTH → G r c = 0 ∨ G r c = 1) →
      ∀ y, y < HEIGHT → ∀ x, x < WIDTH →
        gol_step WIDTH HEIGHT oob scratch G y x = 0 ∨
        gol_step WIDTH HEIGHT oob scratch G y x = 1) ∧
    (∀ (src dst : Board),
      (∀ r, r < HEIGHT → ∀ c, c < WIDTH → src r c = 0 ∨ src r c = 1) →
      ∀ y, y < HEIGHT → ∀ x, x < WIDTH →
        copy_array WIDTH HEIGHT src dst y x = 0 ∨ copy_array WIDTH HEIGHT src dst y x = 1) := by
  refine ⟨?_, ?_, ?_⟩
  · intro rand out_array hrand y hy x hx
    rw [generate_board_randomly_cell]
    simp only [hy, hx, and_self, if_true]
    exact tmod_two_of_nonneg _ (hrand _)
  · intro oob scratch G h01 y hy x hx
    rw [gol_step_cell]
    simp only [hy, hx, and_self, if_true, next_state]
    rcases h01 y hy x hx with h | h
    · rw [h]
      by_cases h3 : neighbor_count WIDTH HEIGHT oob x y G = 3 <;> simp [h3]
    · rw [h]
      by_cases h2 : neighbor_count WIDTH HEIGHT oob x y G ≠ 2 ∧
          neighbor_count WIDTH HEIGHT oob x y G ≠ 3 <;> simp [h2]
  · intro src dst h01 y hy x hx
    rw [copy_array_cell]
    simp only [hy, hx, and_self, if_true]
    exact h01 y hy x hx

/-- C17, on the 3 x 3 board `tee` at the cell `(1, 2)` for `gol_step`, and on a
3 x 3 board filled from the results 0, 1, 2, ... of `rand()` at the same cell. -/
theorem grid_operations_keep_zero_one_witness :
    (∀ k : Nat, (0 : Int) ≤ (fun k : Nat => (k : Int)) k) ∧
    (generate_board_randomly 3 3 (fun k => (k : Int)) blank 2 1 = 0 ∨
      generate_board_randomly 3 3 (fun k => (k : Int)) blank 2 1 = 1) ∧
    (gol_step 3 3 ones blank tee 2 1 = 0 ∨ gol_step 3 3 ones blank tee 2 1 = 1) :=
  ⟨fun k => Int.ofNat_nonneg k,
    (grid_operations_keep_zero_one 3 3).1 (fun k => (k : Int)) blank
      (fun k => Int.ofNat_nonneg k) 2 (by decide) 1 (by decide),
    (grid_operations_keep_zero_one 3 3).2.1 ones blank tee (by decide) 2 (by decide) 1
      (by decide)⟩

end GoL
